import Mathlib

/-!
Verification of the Access-Log Analytics & Anomaly-Detection Engine
(`utils/enhanced_analytics.py`).

Shallow-embedding conventions used throughout this file:

* A pandas `DataFrame` of access events is a `List Event`; the four canonical
  columns (`REQUIRED_INTERNAL_COLUMNS`) are the fields of `Event`.  An
  optional table argument is an `Option`.
* Timestamps carry their pandas `.dt` projections (`hour`, `weekday`, `date`)
  as fields, since the `.dt` accessors are pure functions of the stamp; the
  field `t` is the absolute time in minutes and is what ordering, `diff`,
  and the trailing 7-day window comparison act on.
* Every call to `datetime.now()` becomes an explicit `now` parameter.
* Numeric computation is over `ℚ`.  A pandas `NaN` result (sample variance of
  fewer than two points) is `Option.none`.
* A Python dict whose key set depends on control flow becomes a structure
  with `Option` fields (`none` = key absent from the dict).
* Python code that can raise (`TypeError` on comparing a string with a
  number) is returned in `Except String`; `try/except` is the `Except`
  eliminator.
-/

namespace EnhancedAnalytics

/-- A parsed timestamp together with its pandas `.dt` projections.  `t` is
the absolute time in minutes since a fixed epoch. -/
structure Timestamp where
  t : ℚ
  hour : ℕ
  weekday : ℕ
  date : ℤ
deriving DecidableEq, Repr

/-- One row of the cleaned event table. -/
structure Event where
  timestamp : Timestamp
  userId : String
  doorId : String
  eventType : String
deriving DecidableEq, Repr

/-! ## Generic helpers for the pandas idioms -/

/-- `Series.value_counts()` : each distinct value paired with its number of
occurrences.  pandas orders the result by descending count; no verified
property depends on the order, so the order of `List.dedup` is used. -/
def valueCounts {α : Type} [DecidableEq α] (l : List α) : List (α × ℕ) :=
  l.dedup.map fun x => (x, l.count x)

/-- `Series.mean()` over rationals (`0` on the empty series, a case no
caller below reaches). -/
def listMean (l : List ℚ) : ℚ := l.sum / l.length

/-- `Series.var()` — pandas' sample variance with `ddof=1`; `NaN` (here
`none`) when fewer than two points. -/
def sampleVar (l : List ℚ) : Option ℚ :=
  if l.length ≤ 1 then none
  else some (((l.map fun x => (x - listMean l) ^ 2).sum) / ((l.length : ℚ) - 1))

/-! ## `_calculate_trend_slope` (enhanced_analytics.py lines 152-163)

`x = np.arange(len(series))`, `y = series.values`, then the closed-form
least-squares slope.  The four numpy sums are spelled out as definitions. -/

/-- `np.sum(x)` for `x = arange(len ys)`. -/
def sumX (ys : List ℚ) : ℚ := ∑ i ∈ Finset.range ys.length, (i : ℚ)

/-- `np.sum(y)`. -/
def sumY (ys : List ℚ) : ℚ := ∑ i ∈ Finset.range ys.length, ys.getD i 0

/-- `np.sum(x * y)`. -/
def sumXY (ys : List ℚ) : ℚ := ∑ i ∈ Finset.range ys.length, (i : ℚ) * ys.getD i 0

/-- `np.sum(x ** 2)`. -/
def sumXX (ys : List ℚ) : ℚ := ∑ i ∈ Finset.range ys.length, (i : ℚ) ^ 2

/-- `EnhancedDataProcessor._calculate_trend_slope`. -/
def trendSlope (ys : List ℚ) : ℚ :=
  if ys.length < 2 then 0
  else ((ys.length : ℚ) * sumXY ys - sumX ys * sumY ys) /
       ((ys.length : ℚ) * sumXX ys - sumX ys ^ 2)

/-- Modelled from the spec: the ordinary-least-squares closed form
`(n·Σxy − Σx·Σy) / (n·Σx² − (Σx)²)` with `x` the integer sequence `0..n-1`,
written out independently of `trendSlope` for the refinement claim C3. -/
def olsSlope (ys : List ℚ) : ℚ :=
  ((ys.length : ℚ) * ∑ i ∈ Finset.range ys.length, (i : ℚ) * ys.getD i 0
      - (∑ i ∈ Finset.range ys.length, (i : ℚ)) *
        ∑ i ∈ Finset.range ys.length, ys.getD i 0) /
  ((ys.length : ℚ) * ∑ i ∈ Finset.range ys.length, (i : ℚ) ^ 2
      - (∑ i ∈ Finset.range ys.length, (i : ℚ)) ^ 2)

/-- The strictly increasing daily series `1, 2, ..., n`. -/
def consecutiveSeries (n : ℕ) : List ℚ :=
  (List.range n).map (fun i : ℕ => (i : ℚ) + 1)

lemma sum_cast_range (n : ℕ) :
    ∑ i ∈ Finset.range n, (i : ℚ) = n * (n - 1) / 2 := by
  induction n with
  | zero => simp
  | succ k ih => rw [Finset.sum_range_succ, ih]; push_cast; ring

lemma sum_sq_cast_range (n : ℕ) :
    ∑ i ∈ Finset.range n, (i : ℚ) ^ 2 = n * (n - 1) * (2 * n - 1) / 6 := by
  induction n with
  | zero => simp
  | succ k ih => rw [Finset.sum_range_succ, ih]; push_cast; ring

lemma length_consecutiveSeries (n : ℕ) : (consecutiveSeries n).length = n := by
  rw [consecutiveSeries, List.length_map, List.length_range]

lemma getD_consecutiveSeries {n i : ℕ} (h : i < n) :
    (consecutiveSeries n).getD i 0 = (i : ℚ) + 1 := by
  rw [consecutiveSeries, List.getD_eq_getElem?_getD, List.getElem?_map,
    List.getElem?_range h]
  rfl

lemma getD_replicate {n i : ℕ} {c : ℚ} (h : i < n) :
    (List.replicate n c).getD i 0 = c := by
  simp [List.getD_eq_getElem?_getD, List.getElem?_replicate, h]

lemma denom_consecutive_pos {n : ℕ} (hn : 2 ≤ n) :
    0 < (n : ℚ) * (∑ i ∈ Finset.range n, (i : ℚ) ^ 2)
        - (∑ i ∈ Finset.range n, (i : ℚ)) ^ 2 := by
  have h2 : (2 : ℚ) ≤ (n : ℚ) := by exact_mod_cast hn
  have key : (n : ℚ) * (∑ i ∈ Finset.range n, (i : ℚ) ^ 2)
      - (∑ i ∈ Finset.range n, (i : ℚ)) ^ 2
      = (n : ℚ) ^ 2 * ((n : ℚ) - 1) * ((n : ℚ) + 1) / 12 := by
    rw [sum_cast_range, sum_sq_cast_range]; ring
  rw [key]
  have h0 : (0 : ℚ) < (n : ℚ) := by linarith
  have h1 : (0 : ℚ) < (n : ℚ) - 1 := by linarith
  have h3 : (0 : ℚ) < (n : ℚ) + 1 := by linarith
  positivity

/-- C3: the trend slope equals the OLS closed form with `x = 0..n-1` whenever
the series has at least 2 points; it is 0 for fewer than 2 points; it is
exactly 1 on the consecutive series `1,2,...,n` (n ≥ 2); and it is 0 on every
constant series. -/
theorem c3_trend_slope :
    (∀ ys : List ℚ, ys.length < 2 → trendSlope ys = 0)
    ∧ (∀ ys : List ℚ, 2 ≤ ys.length → trendSlope ys = olsSlope ys)
    ∧ (∀ n : ℕ, 2 ≤ n → trendSlope (consecutiveSeries n) = 1)
    ∧ (∀ (n : ℕ) (c : ℚ), trendSlope (List.replicate n c) = 0) := by
  refine ⟨fun ys h => by rw [trendSlope, if_pos h], fun ys h => ?_, fun n hn => ?_, ?_⟩
  · rw [trendSlope, if_neg (by omega)]
    simp [olsSlope, sumX, sumY, sumXY, sumXX]
  · have hlen : (consecutiveSeries n).length = n := length_consecutiveSeries n
    rw [trendSlope, if_neg (by omega)]
    have hsy : sumY (consecutiveSeries n)
        = (∑ i ∈ Finset.range n, (i : ℚ)) + n := by
      rw [sumY, hlen]
      rw [Finset.sum_congr rfl fun i hi =>
        getD_consecutiveSeries (Finset.mem_range.mp hi)]
      rw [Finset.sum_add_distrib]; simp
    have hsxy : sumXY (consecutiveSeries n)
        = (∑ i ∈ Finset.range n, (i : ℚ) ^ 2) + ∑ i ∈ Finset.range n, (i : ℚ) := by
      rw [sumXY, hlen]
      rw [Finset.sum_congr rfl fun i hi => by
        rw [getD_consecutiveSeries (Finset.mem_range.mp hi)]]
      rw [← Finset.sum_add_distrib]
      exact Finset.sum_congr rfl fun i _ => by ring
    have hsx : sumX (consecutiveSeries n) = ∑ i ∈ Finset.range n, (i : ℚ) := by
      rw [sumX, hlen]
    have hsxx : sumXX (consecutiveSeries n) = ∑ i ∈ Finset.range n, (i : ℚ) ^ 2 := by
      rw [sumXX, hlen]
    rw [hlen, hsy, hsxy, hsx, hsxx]
    have hd := denom_consecutive_pos hn
    have hnum : (n : ℚ) * ((∑ i ∈ Finset.range n, (i : ℚ) ^ 2)
          + ∑ i ∈ Finset.range n, (i : ℚ))
        - (∑ i ∈ Finset.range n, (i : ℚ)) * ((∑ i ∈ Finset.range n, (i : ℚ)) + n)
        = (n : ℚ) * (∑ i ∈ Finset.range n, (i : ℚ) ^ 2)
          - (∑ i ∈ Finset.range n, (i : ℚ)) ^ 2 := by ring
    rw [hnum, div_self (ne_of_gt hd)]
  · intro n c
    by_cases h : n < 2
    · rw [trendSlope, if_pos (by simpa using h)]
    · have hn : 2 ≤ n := by omega
      have hlen : (List.replicate n c).length = n := by simp
      rw [trendSlope, if_neg (by simpa [hlen] using h)]
      have hsy : sumY (List.replicate n c) = (n : ℚ) * c := by
        rw [sumY, hlen]
        rw [Finset.sum_congr rfl fun i hi => getD_replicate (Finset.mem_range.mp hi)]
        simp [mul_comm]
      have hsxy : sumXY (List.replicate n c)
          = (∑ i ∈ Finset.range n, (i : ℚ)) * c := by
        rw [sumXY, hlen]
        rw [Finset.sum_congr rfl fun i hi => by
          rw [getD_replicate (Finset.mem_range.mp hi)]]
        rw [← Finset.sum_mul]
      have hsx : sumX (List.replicate n c) = ∑ i ∈ Finset.range n, (i : ℚ) := by
        rw [sumX, hlen]
      rw [hlen, hsy, hsxy, hsx]
      have hnum : (n : ℚ) * ((∑ i ∈ Finset.range n, (i : ℚ)) * c)
          - (∑ i ∈ Finset.range n, (i : ℚ)) * ((n : ℚ) * c) = 0 := by ring
      rw [hnum, zero_div]

/-- Witness for C3: concrete evaluations discharging each hypothesis at
`ys = [5, 1]` (length 2), the series `1,2,3` and the constant series. -/
theorem c3_trend_slope_witness :
    trendSlope [(5 : ℚ)] = 0 ∧ trendSlope [(5 : ℚ), 1] = olsSlope [(5 : ℚ), 1]
    ∧ trendSlope (consecutiveSeries 3) = 1 ∧ trendSlope (List.replicate 4 (7 : ℚ)) = 0 :=
  ⟨c3_trend_slope.1 [(5 : ℚ)] (by simp),
   c3_trend_slope.2.1 [(5 : ℚ), 1] (by simp),
   c3_trend_slope.2.2.1 3 (by norm_num),
   c3_trend_slope.2.2.2 4 7⟩

/-! ## `_analyze_user_sessions` (enhanced_analytics.py lines 201-231)

For one user the source sorts their rows by timestamp, computes
`diff() > timedelta(minutes=30)` (the first diff is `NaT`, which compares
`False`), takes the cumulative sum of the break flags and groups by the
resulting id.  On a sorted series that pipeline groups consecutive rows,
opening a new group exactly where the gap to the previous stamp exceeds
30 minutes; `splitSessionsAux` is that grouping, accumulating the current
session in reverse in `cur` with `prev` the stamp last added. -/

def splitSessionsAux (prev : ℚ) (cur : List ℚ) : List ℚ → List (List ℚ)
  | [] => [cur.reverse]
  | t :: rest =>
    if t - prev > 30 then cur.reverse :: splitSessionsAux t [t] rest
    else splitSessionsAux t (t :: cur) rest

def splitSessions : List ℚ → List (List ℚ)
  | [] => []
  | t :: rest => splitSessionsAux t [t] rest

/-- `sort_values(timestamp_col)` on one user's stamps. -/
def sortByTime (l : List ℚ) : List ℚ := l.insertionSort (· ≤ ·)

/-- `(session max − session min).total_seconds() / 60`, with stamps already
in minutes. -/
def sessionLength (s : List ℚ) : ℚ := s.max?.getD 0 - s.min?.getD 0

/-- One user's time-sorted stamps (`df[df[userid] == u].sort_values(ts)`). -/
def userStamps (df : List Event) (u : String) : List ℚ :=
  sortByTime ((df.filter fun e => e.userId = u).map fun e => e.timestamp.t)

/-- The lengths of one user's sessions, in session order. -/
def userSessionLengths (df : List Event) (u : String) : List ℚ :=
  (splitSessions (userStamps df u)).map sessionLength

/-- The aggregate `_analyze_user_sessions` result:
`{avg_length, total_count, avg_per_user}`. -/
structure SessionStats where
  avgLength : ℚ
  totalCount : ℕ
  avgPerUser : ℚ
deriving DecidableEq, Repr

/-- `EnhancedDataProcessor._analyze_user_sessions`: all users' sessions
pooled; the all-zero record when there is no session. -/
def analyzeUserSessions (df : List Event) : SessionStats :=
  let users := (df.map Event.userId).dedup
  let lengths := users.flatMap (userSessionLengths df)
  if lengths.isEmpty then ⟨0, 0, 0⟩
  else ⟨listMean lengths, lengths.length, (lengths.length : ℚ) / (users.length : ℚ)⟩

lemma splitSessionsAux_flatten :
    ∀ (rest : List ℚ) (prev : ℚ) (cur : List ℚ),
      (splitSessionsAux prev cur rest).flatten = cur.reverse ++ rest := by
  intro rest
  induction rest with
  | nil => intro prev cur; simp [splitSessionsAux]
  | cons t rest ih =>
    intro prev cur
    by_cases h : t - prev > 30
    · simp [splitSessionsAux, h, ih]
    · simp [splitSessionsAux, h, ih]

lemma splitSessionsAux_ne_nil :
    ∀ (rest : List ℚ) (prev : ℚ) (cur : List ℚ), cur ≠ [] →
      ∀ s ∈ splitSessionsAux prev cur rest, s ≠ [] := by
  intro rest
  induction rest with
  | nil =>
    intro prev cur hcur s hs
    simp only [splitSessionsAux, List.mem_singleton] at hs
    simpa [hs] using hcur
  | cons t rest ih =>
    intro prev cur hcur s hs
    by_cases h : t - prev > 30
    · simp only [splitSessionsAux, if_pos h, List.mem_cons] at hs
      rcases hs with rfl | hs
      · simpa using hcur
      · exact ih t [t] (by simp) s hs
    · simp only [splitSessionsAux, if_neg h] at hs
      exact ih t (t :: cur) (by simp) s hs

lemma splitSessionsAux_chain :
    ∀ (rest : List ℚ) (prev : ℚ) (cur : List ℚ), cur.head? = some prev →
      List.Chain' (fun a b : ℚ => b - a ≤ 30) cur.reverse →
      ∀ s ∈ splitSessionsAux prev cur rest,
        List.Chain' (fun a b : ℚ => b - a ≤ 30) s := by
  intro rest
  induction rest with
  | nil =>
    intro prev cur _ hchain s hs
    simp only [splitSessionsAux, List.mem_singleton] at hs
    simpa [hs] using hchain
  | cons t rest ih =>
    intro prev cur hhead hchain s hs
    by_cases h : t - prev > 30
    · simp only [splitSessionsAux, if_pos h, List.mem_cons] at hs
      rcases hs with rfl | hs
      · exact hchain
      · exact ih t [t] rfl (by simp) s hs
    · simp only [splitSessionsAux, if_neg h] at hs
      refine ih t (t :: cur) rfl ?_ s hs
      rw [List.reverse_cons, List.chain'_append]
      refine ⟨hchain, List.chain'_singleton t, ?_⟩
      intro x hx y hy
      rw [List.getLast?_reverse, hhead, Option.mem_def, Option.some.injEq] at hx
      simp only [List.head?_cons, Option.mem_def, Option.some.injEq] at hy
      subst hx; subst hy
      linarith

lemma splitSessionsAux_first :
    ∀ (rest : List ℚ) (prev : ℚ) (cur : List ℚ),
      ∃ tail, (splitSessionsAux prev cur rest).head? = some (cur.reverse ++ tail) := by
  intro rest
  induction rest with
  | nil => intro prev cur; exact ⟨[], by simp [splitSessionsAux]⟩
  | cons t rest ih =>
    intro prev cur
    by_cases h : t - prev > 30
    · exact ⟨[], by simp [splitSessionsAux, h]⟩
    · obtain ⟨tail, htail⟩ := ih t (t :: cur)
      refine ⟨t :: tail, ?_⟩
      simp only [splitSessionsAux, if_neg h, htail, List.reverse_cons]
      simp

lemma splitSessionsAux_boundary :
    ∀ (rest : List ℚ) (prev : ℚ) (cur : List ℚ), cur.head? = some prev →
      List.Chain' (fun s₁ s₂ : List ℚ => s₂.headD 0 - s₁.getLastD 0 > 30)
        (splitSessionsAux prev cur rest) := by
  intro rest
  induction rest with
  | nil => intro prev cur _; exact List.chain'_singleton _
  | cons t rest ih =>
    intro prev cur hhead
    by_cases h : t - prev > 30
    · simp only [splitSessionsAux, if_pos h]
      rw [List.chain'_cons']
      refine ⟨?_, ih t [t] rfl⟩
      intro y hy
      obtain ⟨tail, htail⟩ := splitSessionsAux_first rest t [t]
      rw [htail, Option.mem_def, Option.some.injEq] at hy
      subst hy
      have hlast : (cur.reverse).getLastD 0 = prev := by
        rw [List.getLastD_eq_getLast?, List.getLast?_reverse, hhead]; rfl
      show (t :: tail).headD 0 - (cur.reverse).getLastD 0 > 30
      rw [hlast]
      exact h
    · simp only [splitSessionsAux, if_neg h]
      exact ih t (t :: cur) rfl

/-- The three events of the spec's session scenario: a single user at
`t`, `t+10 min` and `t+45 min`. -/
def threeEvents (t : ℚ) (u : String) : List Event :=
  [⟨⟨t, 9, 0, 0⟩, u, "d1", "GRANTED"⟩,
   ⟨⟨t + 10, 9, 0, 0⟩, u, "d1", "GRANTED"⟩,
   ⟨⟨t + 45, 9, 0, 0⟩, u, "d2", "GRANTED"⟩]

/-- C2: session segmentation.  For every stamp list, the computed sessions
partition the list, every session is non-empty, gaps inside a session never
exceed 30 minutes, and the gap across each session boundary exceeds 30
minutes (a new session begins exactly when the idle gap exceeds 30 minutes);
each session's length is `max − min` of its stamps (a single-event session
has length 0); and one user's events at `t, t+10min, t+45min` yield exactly
the two sessions `[t, t+10]` and `[t+45]`, of lengths 10 and 0 minutes. -/
theorem c2_session_segmentation :
    (∀ ts : List ℚ,
      (splitSessions ts).flatten = ts
      ∧ (∀ s ∈ splitSessions ts, s ≠ [])
      ∧ (∀ s ∈ splitSessions ts, List.Chain' (fun a b : ℚ => b - a ≤ 30) s)
      ∧ List.Chain' (fun s₁ s₂ : List ℚ => s₂.headD 0 - s₁.getLastD 0 > 30)
          (splitSessions ts))
    ∧ (∀ s : List ℚ, sessionLength s = s.max?.getD 0 - s.min?.getD 0)
    ∧ (∀ x : ℚ, sessionLength [x] = 0)
    ∧ (∀ (t : ℚ) (u : String),
        splitSessions (userStamps (threeEvents t u) u) = [[t, t + 10], [t + 45]]
        ∧ userSessionLengths (threeEvents t u) u = [10, 0]) := by
  refine ⟨fun ts => ?_, fun s => rfl, fun x => by simp [sessionLength], fun t u => ?_⟩
  · cases ts with
    | nil => simp [splitSessions]
    | cons t rest =>
      refine ⟨?_, ?_, ?_, ?_⟩
      · rw [splitSessions, splitSessionsAux_flatten]; rfl
      · exact splitSessionsAux_ne_nil rest t [t] (by simp)
      · exact splitSessionsAux_chain rest t [t] rfl (by simp)
      · exact splitSessionsAux_boundary rest t [t] rfl
  · have hstamps : userStamps (threeEvents t u) u = [t, t + 10, t + 45] := by
      have h1 : (t + 10 : ℚ) ≤ t + 45 := by linarith
      have h2 : t ≤ t + 10 := by linarith
      simp [userStamps, threeEvents, sortByTime, List.insertionSort,
        List.orderedInsert, h1, h2]
    have hsplit : splitSessions [t, t + 10, t + 45] = [[t, t + 10], [t + 45]] := by
      simp [splitSessions, splitSessionsAux]
      norm_num
    have hmax : (max t (t + 10)) = t + 10 := max_eq_right (by linarith)
    have hmin : (min t (t + 10)) = t := min_eq_left (by linarith)
    refine ⟨by rw [hstamps, hsplit], ?_⟩
    rw [userSessionLengths, hstamps, hsplit]
    simp [sessionLength, List.max?_cons, List.min?_cons, hmax, hmin]

/-! ## Security compliance
(`process_security_analytics` lines 130-150, `_calculate_compliance_score`
lines 302-315, `_assess_security_balance` lines 317-331)

The engine reads only the `SecurityLevel` column of the DeviceAttributes
table, so a table is embedded as the list of that column's entries, `none`
for a null cell (`value_counts()` drops nulls). -/

/-- The `SecurityLevel` column of a DeviceAttributes table. -/
abbrev DeviceAttrs := List (Option String)

/-- `counts.get(key, 0)` on a value-counts result. -/
def getCount (counts : List (String × ℕ)) (key : String) : ℕ :=
  (counts.lookup key).getD 0

/-- Python 3's `round` to an integer: round-half-to-even. -/
def pyRoundInt (q : ℚ) : ℤ :=
  if q - ⌊q⌋ = 1 / 2 then (if 2 ∣ ⌊q⌋ then ⌊q⌋ else ⌊q⌋ + 1) else round q

/-- Python's `round(x, 1)`. -/
def round1 (q : ℚ) : ℚ := (pyRoundInt (10 * q) : ℚ) / 10

/-- `EnhancedDataProcessor._calculate_compliance_score`:
`classification_score = classified/total * 70`,
`security_balance_score = min(30, red/total * 100)`, rounded to one digit. -/
def calculateComplianceScore (counts : List (String × ℕ)) (totalDevices : ℕ) : ℚ :=
  if totalDevices = 0 then 0
  else round1 ((((counts.map Prod.snd).sum : ℚ) / (totalDevices : ℚ)) * 70
    + min 30 ((getCount counts "red" : ℚ) / (totalDevices : ℚ) * 100))

/-- `EnhancedDataProcessor._assess_security_balance`. -/
def assessSecurityBalance (counts : List (String × ℕ)) : String :=
  if (counts.map Prod.snd).sum = 0 then "No data"
  else if ((getCount counts "red" : ℚ) / ((counts.map Prod.snd).sum : ℚ)) * 100 > 50
    then "High security focus"
  else if ((getCount counts "green" : ℚ) / ((counts.map Prod.snd).sum : ℚ)) * 100 > 70
    then "Low security focus"
  else "Balanced security"

/-- The `security` dict built by `process_security_analytics`; `none` fields
are keys the source never inserts on that control path.  The
`distribution_percentages` and df-dependent `access_control_metrics` entries
are not consumed by any verified claim and are omitted. -/
structure SecurityAnalytics where
  distribution : Option (List (String × ℕ))
  complianceScore : Option ℚ
  securityBalance : Option String
deriving DecidableEq, Repr

/-- `EnhancedDataProcessor.process_security_analytics` (device-attribute
part): on a missing or empty table no key is inserted at all. -/
def processSecurityAnalytics (deviceAttrs : Option DeviceAttrs) : SecurityAnalytics :=
  match deviceAttrs with
  | none => ⟨none, none, none⟩
  | some attrs =>
    if attrs.isEmpty then ⟨none, none, none⟩
    else
      ⟨some (valueCounts (attrs.filterMap id)),
       some (calculateComplianceScore (valueCounts (attrs.filterMap id)) attrs.length),
       some (assessSecurityBalance (valueCounts (attrs.filterMap id)))⟩

lemma pyRoundInt_bounds (q : ℚ) : ⌊q⌋ ≤ pyRoundInt q ∧ pyRoundInt q ≤ ⌈q⌉ := by
  unfold pyRoundInt
  by_cases h : q - ⌊q⌋ = 1 / 2
  · have hq : q = (⌊q⌋ : ℚ) + 1 / 2 := by linarith
    have hhalf : ⌈(1 / 2 : ℚ)⌉ = 1 := by
      rw [Int.ceil_eq_iff]
      norm_num
    have hceil : ⌈q⌉ = ⌊q⌋ + 1 := by
      obtain ⟨n, hn⟩ : ∃ n : ℤ, ⌊q⌋ = n := ⟨⌊q⌋, rfl⟩
      have hq2 : q = (1 / 2 : ℚ) + (n : ℚ) := by rw [hq, hn]; ring
      rw [hn, hq2, Int.ceil_add_int, hhalf]
      omega
    rw [if_pos h]
    by_cases h2 : 2 ∣ ⌊q⌋
    · rw [if_pos h2]; omega
    · rw [if_neg h2]; omega
  · rw [if_neg h, round_eq]
    constructor
    · exact Int.floor_le_floor (by linarith)
    · have hc := Int.le_ceil q
      have hlt : q + 1 / 2 < ((⌈q⌉ + 1 : ℤ) : ℚ) := by push_cast; linarith
      have := Int.floor_lt.mpr hlt
      omega

lemma round1_bounds {x : ℚ} (h0 : 0 ≤ x) (h100 : x ≤ 100) :
    0 ≤ round1 x ∧ round1 x ≤ 100 := by
  obtain ⟨hlo, hhi⟩ := pyRoundInt_bounds (10 * x)
  have hfl : (0 : ℤ) ≤ ⌊10 * x⌋ := Int.floor_nonneg.mpr (by linarith)
  have hcl : ⌈10 * x⌉ ≤ 1000 := Int.ceil_le.mpr (by push_cast; linarith)
  unfold round1
  constructor
  · have h1 : (0 : ℤ) ≤ pyRoundInt (10 * x) := le_trans hfl hlo
    have h2 : (0 : ℚ) ≤ (pyRoundInt (10 * x) : ℚ) := by exact_mod_cast h1
    linarith
  · have h1 : pyRoundInt (10 * x) ≤ 1000 := le_trans hhi hcl
    have h2 : (pyRoundInt (10 * x) : ℚ) ≤ 1000 := by exact_mod_cast h1
    linarith

lemma lookup_map_pair {β : Type} (f : String → β) :
    ∀ (ks : List String) (x : String),
      (ks.map fun k => (k, f k)).lookup x = if x ∈ ks then some (f x) else none := by
  intro ks
  induction ks with
  | nil => intro x; simp
  | cons k ks ih =>
    intro x
    by_cases h : x = k
    · subst h; simp [List.lookup]
    · have hbeq : (x == k) = false := beq_eq_false_iff_ne.mpr h
      simp [List.lookup, hbeq, h, ih x]

lemma getCount_valueCounts (l : List String) (x : String) :
    getCount (valueCounts l) x = l.count x := by
  unfold getCount valueCounts
  rw [lookup_map_pair (fun k => l.count k) l.dedup x]
  by_cases h : x ∈ l.dedup
  · rw [if_pos h]; rfl
  · rw [if_neg h]
    have hx : x ∉ l := fun hx => h (List.mem_dedup.mpr hx)
    simp [List.count_eq_zero_of_not_mem hx]

lemma sum_counts_valueCounts (l : List String) :
    ((valueCounts l).map Prod.snd).sum = l.length := by
  unfold valueCounts
  rw [List.map_map]
  exact List.sum_map_count_dedup_eq_length l

/-- C4 (amended): for every non-empty DeviceAttributes table the compliance
score equals `round(classified/total*70 + min(30, red/total*100), 1)` and
lies in `[0, 100]`; but for an empty or absent table
`process_security_analytics` inserts no compliance-score key at all (it does
not report the score 0 the original claim states) — only the helper
`_calculate_compliance_score` returns 0 when called with zero devices. -/
theorem c4_compliance_score :
    (∀ attrs : DeviceAttrs, attrs ≠ [] →
      (processSecurityAnalytics (some attrs)).complianceScore
        = some (calculateComplianceScore (valueCounts (attrs.filterMap id)) attrs.length)
      ∧ calculateComplianceScore (valueCounts (attrs.filterMap id)) attrs.length
        = round1 ((((attrs.filterMap id).length : ℚ) / (attrs.length : ℚ)) * 70
            + min 30 (((attrs.filterMap id).count "red" : ℚ) / (attrs.length : ℚ) * 100))
      ∧ 0 ≤ calculateComplianceScore (valueCounts (attrs.filterMap id)) attrs.length
      ∧ calculateComplianceScore (valueCounts (attrs.filterMap id)) attrs.length ≤ 100)
    ∧ (processSecurityAnalytics none).complianceScore = none
    ∧ (processSecurityAnalytics (some ([] : DeviceAttrs))).complianceScore = none
    ∧ (∀ counts : List (String × ℕ), calculateComplianceScore counts 0 = 0) := by
  refine ⟨fun attrs hne => ?_, rfl, rfl, fun counts => by rw [calculateComplianceScore, if_pos rfl]⟩
  obtain ⟨a, as, rfl⟩ := List.exists_cons_of_ne_nil hne
  have htot : (a :: as).length ≠ 0 := by simp
  have hval : calculateComplianceScore (valueCounts ((a :: as).filterMap id))
      (a :: as).length
      = round1 (((((a :: as).filterMap id).length : ℚ) / ((a :: as).length : ℚ)) * 70
          + min 30 ((((a :: as).filterMap id).count "red" : ℚ)
              / ((a :: as).length : ℚ) * 100)) := by
    rw [calculateComplianceScore, if_neg htot, sum_counts_valueCounts,
      getCount_valueCounts]
  refine ⟨by simp [processSecurityAnalytics], hval, ?_⟩
  rw [hval]
  have hT : (0 : ℚ) < ((a :: as).length : ℚ) := by
    have : 0 < (a :: as).length := by simp
    exact_mod_cast this
  have hcls : (((a :: as).filterMap id).length : ℚ) ≤ ((a :: as).length : ℚ) := by
    exact_mod_cast List.length_filterMap_le id (a :: as)
  have hred0 : (0 : ℚ) ≤ (((a :: as).filterMap id).count "red" : ℚ) := by positivity
  have harg0 : 0 ≤ ((((a :: as).filterMap id).length : ℚ) / ((a :: as).length : ℚ)) * 70
      + min 30 ((((a :: as).filterMap id).count "red" : ℚ)
          / ((a :: as).length : ℚ) * 100) := by
    have h1 : (0 : ℚ) ≤ ((((a :: as).filterMap id).length : ℚ)
        / ((a :: as).length : ℚ)) * 70 := by positivity
    have h2 : (0 : ℚ) ≤ min 30 ((((a :: as).filterMap id).count "red" : ℚ)
        / ((a :: as).length : ℚ) * 100) :=
      le_min (by norm_num) (by positivity)
    linarith
  have harg100 : ((((a :: as).filterMap id).length : ℚ) / ((a :: as).length : ℚ)) * 70
      + min 30 ((((a :: as).filterMap id).count "red" : ℚ)
          / ((a :: as).length : ℚ) * 100) ≤ 100 := by
    have h1 : (((a :: as).filterMap id).length : ℚ) / ((a :: as).length : ℚ) ≤ 1 :=
      (div_le_one hT).mpr hcls
    have h2 : ((((a :: as).filterMap id).length : ℚ) / ((a :: as).length : ℚ)) * 70
        ≤ 70 := by nlinarith
    have h3 : min 30 ((((a :: as).filterMap id).count "red" : ℚ)
        / ((a :: as).length : ℚ) * 100) ≤ 30 := min_le_left _ _
    linarith
  exact round1_bounds harg0 harg100

/-- C4 counterexample: on the concrete empty DeviceAttributes table the
returned security analytics has no compliance-score entry — in particular
the returned score is not 0 as the original claim states for empty input. -/
theorem c4_compliance_score_cex :
    (processSecurityAnalytics (some ([] : DeviceAttrs))).complianceScore = none
    ∧ (processSecurityAnalytics (some ([] : DeviceAttrs))).complianceScore ≠ some 0 :=
  ⟨rfl, by simp [processSecurityAnalytics]⟩

/-! ## `process_temporal_patterns` (lines 34-65), hourly distribution -/

/-- `df.groupby(key).size()` : the observed keys in ascending order (pandas
sorts the groupby index), each paired with its group size. -/
def groupbySize {α : Type} [LinearOrder α] [DecidableEq α] (keys : List α) :
    List (α × ℕ) :=
  ((keys.toFinset.sort (· ≤ ·)).map fun k => (k, keys.count k))

/-- The `hourly_distribution` entry of
`EnhancedDataProcessor.process_temporal_patterns`: the all-default (empty)
dict behind the empty-table guard, otherwise the hour-of-day group sizes.
(The remaining keys of the patterns dict are derived from these buckets and
are not consumed by any verified claim.) -/
def temporalHourlyDistribution (df : List Event) : List (ℕ × ℕ) :=
  if df.isEmpty then []
  else groupbySize (df.map fun e => e.timestamp.hour)

lemma sum_groupbySize {α : Type} [LinearOrder α] [DecidableEq α] (keys : List α) :
    ((groupbySize keys).map Prod.snd).sum = keys.length := by
  unfold groupbySize
  rw [List.map_map]
  have hperm : ((keys.toFinset.sort (· ≤ ·)).map fun k => keys.count k).Perm
      (keys.toFinset.toList.map fun k => keys.count k) :=
    (Finset.sort_perm_toList _ keys.toFinset).map _
  have : ((keys.toFinset.sort (· ≤ ·)).map fun k => keys.count k).sum
      = keys.toFinset.sum fun k => keys.count k := by
    rw [hperm.sum_eq, Finset.sum_to_list]
  calc ((keys.toFinset.sort (· ≤ ·)).map (Prod.snd ∘ fun k => (k, keys.count k))).sum
      = ((keys.toFinset.sort (· ≤ ·)).map fun k => keys.count k).sum := rfl
    _ = keys.toFinset.sum fun k => keys.count k := this
    _ = keys.length := List.sum_toFinset_count_eq_length keys

/-- C6: for every non-empty event table the counts in the hourly
distribution sum to the total number of events. -/
theorem c6_hourly_distribution_total (df : List Event) (h : df ≠ []) :
    ((temporalHourlyDistribution df).map Prod.snd).sum = df.length := by
  have hempty : df.isEmpty = false := by
    cases df with
    | nil => exact absurd rfl h
    | cons a as => rfl
  rw [temporalHourlyDistribution, hempty, if_neg (by simp), sum_groupbySize,
    List.length_map]

/-- Witness for C6 at a concrete one-event table. -/
theorem c6_hourly_distribution_total_witness :
    ((temporalHourlyDistribution
        [⟨⟨540, 9, 0, 0⟩, "u1", "d1", "GRANTED"⟩]).map Prod.snd).sum = 1 :=
  c6_hourly_distribution_total [⟨⟨540, 9, 0, 0⟩, "u1", "d1", "GRANTED"⟩]
    (by simp)

/-! ## `_calculate_device_trends` (lines 255-282) -/

/-- `df[df[timestamp] >= week_ago]` with `week_ago = now - timedelta(days=7)`
(7·24·60 minutes). -/
def recentEvents (df : List Event) (now : Timestamp) : List Event :=
  df.filter fun e => now.t - 7 * 24 * 60 ≤ e.timestamp.t

/-- The sorted distinct calendar dates of a table — the index of
`groupby([date, door]).size().unstack(fill_value=0)`. -/
def sortedDates (df : List Event) : List ℤ :=
  (df.map fun e => e.timestamp.date).toFinset.sort (· ≤ ·)

/-- The sorted distinct device names of a table — the columns of the
unstacked daily-count frame. -/
def sortedDevices (df : List Event) : List String :=
  (df.map Event.doorId).toFinset.sort (· ≤ ·)

/-- One device's daily-count series over the recent window: for every date
present in the recent data (across all devices), the number of that
device's events on that date (`fill_value=0` supplies the zeros). -/
def deviceDailySeries (df : List Event) (now : Timestamp) (d : String) : List ℚ :=
  (sortedDates (recentEvents df now)).map fun day =>
    (((recentEvents df now).filter fun e =>
        e.doorId = d ∧ e.timestamp.date = day).length : ℚ)

/-- The three trend labels (source strings "📈 Increasing", "📉 Decreasing",
"📊 Stable", abstracted to an enum since no claim reads the emoji text). -/
inductive Trend
  | increasing
  | decreasing
  | stable
deriving DecidableEq, Repr

/-- `slope > 0.5 → Increasing`, `slope < -0.5 → Decreasing`, else Stable. -/
def trendLabel (slope : ℚ) : Trend :=
  if slope > 1 / 2 then Trend.increasing
  else if slope < -(1 / 2) then Trend.decreasing
  else Trend.stable

/-- `EnhancedDataProcessor._calculate_device_trends`. -/
def calculateDeviceTrends (df : List Event) (now : Timestamp) :
    List (String × Trend) :=
  if (recentEvents df now).isEmpty then []
  else (sortedDevices (recentEvents df now)).map fun d =>
    (d, trendLabel (trendSlope (deviceDailySeries df now d)))

/-- C7: the device-trend map is computed over the trailing 7-day window
only; a device is present in the map iff it has at least one event in that
window, in which case its label is the least-squares-slope label of its
daily series; devices without recent events are absent (not zero-filled);
and the labels are exactly the `> 0.5` / `< -0.5` / `Stable` bucketing. -/
theorem c7_device_trends :
    (∀ (df : List Event) (now : Timestamp) (d : String),
      (calculateDeviceTrends df now).lookup d
        = if ∃ e ∈ df, e.doorId = d ∧ now.t - 7 * 24 * 60 ≤ e.timestamp.t
          then some (trendLabel (trendSlope (deviceDailySeries df now d)))
          else none)
    ∧ (∀ s : ℚ, trendLabel s
        = if s > 1 / 2 then Trend.increasing
          else if s < -(1 / 2) then Trend.decreasing
          else Trend.stable) := by
  refine ⟨fun df now d => ?_, fun s => rfl⟩
  have hmem : (∃ e ∈ df, e.doorId = d ∧ now.t - 7 * 24 * 60 ≤ e.timestamp.t)
      ↔ d ∈ sortedDevices (recentEvents df now) := by
    rw [sortedDevices, Finset.mem_sort, List.mem_toFinset]
    constructor
    · rintro ⟨e, he, hdoor, hwin⟩
      exact List.mem_map.mpr ⟨e, List.mem_filter.mpr ⟨he, by simpa using hwin⟩, hdoor⟩
    · rintro hd
      obtain ⟨e, he, hdoor⟩ := List.mem_map.mp hd
      have := List.mem_filter.mp he
      exact ⟨e, this.1, hdoor, by simpa using this.2⟩
  by_cases hx : ∃ e ∈ df, e.doorId = d ∧ now.t - 7 * 24 * 60 ≤ e.timestamp.t
  · rw [if_pos hx]
    have hd : d ∈ sortedDevices (recentEvents df now) := hmem.mp hx
    have hne : (recentEvents df now).isEmpty = false := by
      obtain ⟨e, he, _, hwin⟩ := hx
      have : e ∈ recentEvents df now := List.mem_filter.mpr ⟨he, by simpa using hwin⟩
      cases hrec : recentEvents df now with
      | nil => rw [hrec] at this; exact absurd this (List.not_mem_nil e)
      | cons a as => rfl
    rw [calculateDeviceTrends, hne, if_neg (by simp),
      lookup_map_pair (fun d => trendLabel (trendSlope (deviceDailySeries df now d)))
        (sortedDevices (recentEvents df now)) d,
      if_pos hd]
  · rw [if_neg hx]
    by_cases hne : (recentEvents df now).isEmpty
    · rw [calculateDeviceTrends, if_pos hne]; rfl
    · have hd : d ∉ sortedDevices (recentEvents df now) := fun hd => hx (hmem.mpr hd)
      rw [calculateDeviceTrends, if_neg hne,
        lookup_map_pair (fun d => trendLabel (trendSlope (deviceDailySeries df now d)))
          (sortedDevices (recentEvents df now)) d,
        if_neg hd]

/-! ## `process_device_analytics` (lines 97-128) -/

/-- `value_counts().index[0]` together with `.iloc[0]`: a value of maximal
count.  pandas sorts `value_counts` by descending count; ties there follow
an incidental pandas order, so one deterministic choice (first maximum in
`valueCounts` order) is fixed here; no claim depends on the tie order. -/
def mostCommon (counts : List (String × ℕ)) : String × ℕ :=
  counts.foldl (fun best p => if p.2 > best.2 then p else best) ("N/A", 0)

/-- The `process_device_analytics` result dict.  The `security_distribution`
field embeds the `level_distribution` entry of `_analyze_device_security`
(its entrance/stairway counts read columns no verified claim touches). -/
structure DeviceAnalytics where
  totalDevices : ℕ
  mostActiveDevice : String
  mostActiveDeviceCount : ℕ
  averageEventsPerDevice : ℚ
  deviceUsageVariance : Option ℚ
  devicesActiveToday : ℕ
  trendingDevices : List (String × Trend)
  securityDistribution : Option (List (String × ℕ))
deriving DecidableEq, Repr

/-- `EnhancedDataProcessor.process_device_analytics`; `now` stands for the
two `datetime.now()` reads (devices-active-today and the 7-day trend
window). -/
def processDeviceAnalytics (df : List Event) (deviceAttrs : Option DeviceAttrs)
    (now : Timestamp) : DeviceAnalytics :=
  if df.isEmpty then ⟨0, "N/A", 0, 0, none, 0, [], some []⟩
  else
    ⟨(valueCounts (df.map Event.doorId)).length,
     (mostCommon (valueCounts (df.map Event.doorId))).1,
     (mostCommon (valueCounts (df.map Event.doorId))).2,
     listMean ((valueCounts (df.map Event.doorId)).map fun p => (p.2 : ℚ)),
     sampleVar ((valueCounts (df.map Event.doorId)).map fun p => (p.2 : ℚ)),
     ((df.filter fun e => e.timestamp.date = now.date).map Event.doorId).dedup.length,
     calculateDeviceTrends df now,
     match deviceAttrs with
     | none => none
     | some attrs =>
       if attrs.isEmpty then none else some (valueCounts (attrs.filterMap id))⟩

/-- C8 (amended): two runs of the device analytics over the same immutable
input at different wall-clock times agree on every field except
`devices_active_today` *and* `trending_devices` — the trend map's trailing
7-day window is also taken relative to the current time, so it is
time-dependent too; the temporal, user and security analyzers read no clock
at all (their embeddings take no `now`). -/
theorem c8_idempotence :
    ∀ (df : List Event) (attrs : Option DeviceAttrs) (n₁ n₂ : Timestamp),
      (processDeviceAnalytics df attrs n₁).totalDevices
          = (processDeviceAnalytics df attrs n₂).totalDevices
      ∧ (processDeviceAnalytics df attrs n₁).mostActiveDevice
          = (processDeviceAnalytics df attrs n₂).mostActiveDevice
      ∧ (processDeviceAnalytics df attrs n₁).mostActiveDeviceCount
          = (processDeviceAnalytics df attrs n₂).mostActiveDeviceCount
      ∧ (processDeviceAnalytics df attrs n₁).averageEventsPerDevice
          = (processDeviceAnalytics df attrs n₂).averageEventsPerDevice
      ∧ (processDeviceAnalytics df attrs n₁).deviceUsageVariance
          = (processDeviceAnalytics df attrs n₂).deviceUsageVariance
      ∧ (processDeviceAnalytics df attrs n₁).securityDistribution
          = (processDeviceAnalytics df attrs n₂).securityDistribution := by
  intro df attrs n₁ n₂
  by_cases h : df.isEmpty <;>
    simp [processDeviceAnalytics, h]

/-- One event for device `dA` at absolute minute 100 — sample data for the
time-dependence counterexample. -/
def cexEvent : Event := ⟨⟨100, 9, 0, 0⟩, "u1", "dA", "GRANTED"⟩

/-- An analysis run at the moment of `cexEvent`. -/
def cexNowEarly : Timestamp := ⟨100, 9, 0, 0⟩

/-- An analysis run 10 weeks later. -/
def cexNowLate : Timestamp := ⟨100800, 9, 0, 70⟩

/-- C8 counterexample: one event for device `dA`; run once at the event's
moment and once 10 weeks later.  The `trending_devices` maps differ
(`[("dA", Stable)]` versus the empty map), so the two outputs are not
identical outside the `devices_active_today` exemption. -/
theorem c8_idempotence_cex :
    (processDeviceAnalytics [cexEvent] none cexNowEarly).trendingDevices
        = [("dA", Trend.stable)]
    ∧ (processDeviceAnalytics [cexEvent] none cexNowLate).trendingDevices = []
    ∧ (processDeviceAnalytics [cexEvent] none cexNowEarly).trendingDevices
        ≠ (processDeviceAnalytics [cexEvent] none cexNowLate).trendingDevices := by
  have hrec1 : recentEvents [cexEvent] cexNowEarly = [cexEvent] := by
    norm_num [recentEvents, cexEvent, cexNowEarly]
  have hrec2 : recentEvents [cexEvent] cexNowLate = [] := by
    norm_num [recentEvents, cexEvent, cexNowLate]
  have ht1 : calculateDeviceTrends [cexEvent] cexNowEarly = [("dA", Trend.stable)] := by
    rw [calculateDeviceTrends, hrec1, if_neg (by simp)]
    have hdev : sortedDevices [cexEvent] = ["dA"] := by
      rw [sortedDevices]
      simp [cexEvent, Finset.sort_singleton]
    have hdat : sortedDates [cexEvent] = [0] := by
      rw [sortedDates]
      simp [cexEvent, Finset.sort_singleton]
    have hser : deviceDailySeries [cexEvent] cexNowEarly "dA" = [1] := by
      rw [deviceDailySeries, hrec1, hdat]
      simp [cexEvent]
    rw [hdev]
    simp only [List.map_cons, List.map_nil, hser]
    norm_num [trendSlope, trendLabel]
  have ht2 : calculateDeviceTrends [cexEvent] cexNowLate = [] := by
    rw [calculateDeviceTrends, hrec2]
    rfl
  have hp1 : (processDeviceAnalytics [cexEvent] none cexNowEarly).trendingDevices
      = calculateDeviceTrends [cexEvent] cexNowEarly := by
    rw [processDeviceAnalytics, if_neg (by simp)]
  have hp2 : (processDeviceAnalytics [cexEvent] none cexNowLate).trendingDevices
      = calculateDeviceTrends [cexEvent] cexNowLate := by
    rw [processDeviceAnalytics, if_neg (by simp)]
  refine ⟨by rw [hp1, ht1], by rw [hp2, ht2], ?_⟩
  rw [hp1, ht1, hp2, ht2]
  simp

/-! ## `EnhancedAnomalyDetector` (lines 579-750) -/

/-- Anomaly severity tags. -/
inductive Severity
  | low
  | medium
  | high
deriving DecidableEq, Repr

/-- One anomaly record.  The free-text `message` entry is presentation-only
and omitted; `value`/`threshold`/`user_id`/`device_id` are `none` when the
source dict does not carry the key.  The `high_user_activity` record's
numeric threshold `mean + 3·std` is irrational in general and read by no
claim; it is recorded as `none`. -/
structure Anomaly where
  type : String
  severity : Severity
  value : Option ℚ
  threshold : Option ℚ
  userId : Option String
  deviceId : Option String
  timestamp : String
deriving DecidableEq, Repr

/-- A value stored in the `stats_data` dict: numeric, or malformed text. -/
inductive StatVal
  | num (q : ℚ)
  | str (s : String)
deriving DecidableEq, Repr

/-- The four `stats_data` keys the statistical strategy reads
(`peak_hour_events`, `compliance_score`, `devices_active_today`,
`num_devices`); `none` encodes an absent key. -/
structure StatsData where
  peakHourEvents : Option StatVal
  complianceScore : Option StatVal
  devicesActiveToday : Option StatVal
  numDevices : Option StatVal
deriving DecidableEq, Repr

/-- `stats_data.get(key, default)`. -/
def statGet (v : Option StatVal) (d : ℚ) : StatVal := v.getD (StatVal.num d)

/-- Using a retrieved stats value in an arithmetic comparison or a division:
a string value raises `TypeError`, exactly as in Python. -/
def StatVal.toNum : StatVal → Except String ℚ
  | StatVal.num q => Except.ok q
  | StatVal.str _ => Except.error "TypeError"

def peakAnomaly (v : ℚ) (now : String) : Anomaly :=
  ⟨"high_peak_activity", Severity.medium, some v, some 1000, none, none, now⟩

def complianceAnomaly (v : ℚ) (now : String) : Anomaly :=
  ⟨"low_compliance", Severity.high, some v, some 50, none, none, now⟩

def deviceActivityAnomaly (v : ℚ) (now : String) : Anomaly :=
  ⟨"low_device_activity", Severity.medium, some v, some (1 / 2), none, none, now⟩

def nightAnomaly (v : ℚ) (now : String) : Anomaly :=
  ⟨"unusual_night_activity", Severity.medium, some v, some (1 / 5), none, none, now⟩

def weekendAnomaly (v : ℚ) (now : String) : Anomaly :=
  ⟨"high_weekend_activity", Severity.low, some v, some (3 / 10), none, none, now⟩

def highUserAnomaly (u : String) (count : ℕ) (now : String) : Anomaly :=
  ⟨"high_user_activity", Severity.medium, some (count : ℚ), none, some u, none, now⟩

def inactiveDeviceAnomaly (d : String) (now : String) : Anomaly :=
  ⟨"inactive_device", Severity.low, some 0, some 1, none, some d, now⟩

/-- The single record the `except` clause of `detect_anomalies` appends. -/
def detectionError (now : String) : Anomaly :=
  ⟨"detection_error", Severity.low, none, none, none, none, now⟩

/-- `EnhancedAnomalyDetector._detect_statistical_anomalies` (lines 614-655).
Each `match … .toNum` is one Python comparison/division that raises
`TypeError` on a non-numeric value; the evaluation order (peak, compliance,
`num_devices > 0`, then the short-circuited division) follows the source. -/
def detectStatisticalAnomalies (stats : StatsData) (now : String) :
    Except String (List Anomaly) :=
  match (statGet stats.peakHourEvents 0).toNum with
  | Except.error e => Except.error e
  | Except.ok peakEvents =>
    match (statGet stats.complianceScore 100).toNum with
    | Except.error e => Except.error e
    | Except.ok complianceScore =>
      match (statGet stats.numDevices 0).toNum with
      | Except.error e => Except.error e
      | Except.ok numDevices =>
        match (if 0 < numDevices then
            (match (statGet stats.devicesActiveToday 0).toNum with
             | Except.error e => Except.error e
             | Except.ok devicesToday =>
               Except.ok (if devicesToday / numDevices < 1 / 2
                 then [deviceActivityAnomaly (devicesToday / numDevices) now]
                 else []))
          else Except.ok []) with
        | Except.error e => Except.error e
        | Except.ok lowActivity =>
          Except.ok ((if peakEvents > 1000 then [peakAnomaly peakEvents now] else [])
            ++ (if complianceScore < 50 then [complianceAnomaly complianceScore now]
                else [])
            ++ lowActivity)

/-- `EnhancedAnomalyDetector._detect_time_anomalies` (lines 657-699).  In
this typed embedding the timestamp column is always present and parsed, so
the source's inner `try/except` can never fire and the function is total. -/
def detectTimeAnomalies (df : List Event) (now : String) : List Anomaly :=
  (if 0 < df.length
      ∧ ((df.filter fun e =>
            e.timestamp.hour ∈ ([22, 23, 0, 1, 2, 3, 4, 5] : List ℕ)).length : ℚ)
          / (df.length : ℚ) > 1 / 5
    then [nightAnomaly (((df.filter fun e =>
          e.timestamp.hour ∈ ([22, 23, 0, 1, 2, 3, 4, 5] : List ℕ)).length : ℚ)
        / (df.length : ℚ)) now]
    else [])
  ++ (if 0 < df.length
      ∧ ((df.filter fun e =>
            e.timestamp.weekday ∈ ([5, 6] : List ℕ)).length : ℚ)
          / (df.length : ℚ) > 3 / 10
    then [weekendAnomaly (((df.filter fun e =>
          e.timestamp.weekday ∈ ([5, 6] : List ℕ)).length : ℚ)
        / (df.length : ℚ)) now]
    else [])

/-- `df[userid].value_counts()`. -/
def userCounts (df : List Event) : List (String × ℕ) :=
  valueCounts (df.map Event.userId)

/-- `df[doorid].value_counts()`. -/
def deviceCounts (df : List Event) : List (String × ℕ) :=
  valueCounts (df.map Event.doorId)

/-- `EnhancedAnomalyDetector._detect_pattern_anomalies` (lines 701-750).
`user_counts.std()` is the `ddof=1` sample standard deviation (`NaN` for
fewer than two users, and `NaN > 0` is `False`); over the rationals the
guard `std > 0` is `var > 0`, and given `var > 0` the comparison
`count > mean + 3·std` holds iff `count − mean > 0` and
`(count − mean)² > 9·var` — the exact characterisation of the source's
irrational-threshold comparison.  The inner `try/except` cannot fire in the
typed embedding. -/
def detectPatternAnomalies (df : List Event) (now : String) : List Anomaly :=
  (match sampleVar ((userCounts df).map fun p => (p.2 : ℚ)) with
   | none => []
   | some var =>
     if 0 < var then
       ((userCounts df).filter fun p =>
           0 < (p.2 : ℚ) - listMean ((userCounts df).map fun q => (q.2 : ℚ))
           ∧ 9 * var
             < ((p.2 : ℚ) - listMean ((userCounts df).map fun q => (q.2 : ℚ))) ^ 2).map
         fun p => highUserAnomaly p.1 p.2 now
     else [])
  ++ (if 0 < (deviceCounts df).length
        ∧ ((deviceCounts df).map Prod.snd).min? = some 0
      then ((deviceCounts df).filter fun p => p.2 = 0).map
        fun p => inactiveDeviceAnomaly p.1 now
      else [])

/-- The body of the `try` block of `detect_anomalies` (lines 589-601):
statistical anomalies first, then — when an event table is supplied and
non-empty — time-based and pattern-based anomalies. -/
def detectAnomaliesBody (df : Option (List Event)) (stats : StatsData)
    (now : String) : Except String (List Anomaly) :=
  match detectStatisticalAnomalies stats now with
  | Except.error e => Except.error e
  | Except.ok statAnoms =>
    match df with
    | none => Except.ok statAnoms
    | some events =>
      if events.isEmpty then Except.ok statAnoms
      else Except.ok (statAnoms ++ detectTimeAnomalies events now
        ++ detectPatternAnomalies events now)

/-- `EnhancedAnomalyDetector.detect_anomalies` (lines 585-612): the
`except Exception` clause converts any internal failure into the single
`detection_error` record. -/
def detectAnomalies (df : Option (List Event)) (stats : StatsData)
    (now : String) : List Anomaly :=
  match detectAnomaliesBody df stats now with
  | Except.ok l => l
  | Except.error _ => [detectionError now]

lemma exists_mem_append' {α : Type} {A B : List α} {Q : α → Prop} :
    (∃ x ∈ A ++ B, Q x) ↔ (∃ x ∈ A, Q x) ∨ (∃ x ∈ B, Q x) := by
  constructor
  · rintro ⟨x, hx, hq⟩
    rcases List.mem_append.mp hx with h | h
    exacts [Or.inl ⟨x, h, hq⟩, Or.inr ⟨x, h, hq⟩]
  · rintro (⟨x, hx, hq⟩ | ⟨x, hx, hq⟩)
    exacts [⟨x, List.mem_append.mpr (Or.inl hx), hq⟩,
      ⟨x, List.mem_append.mpr (Or.inr hx), hq⟩]

lemma exists_mem_ite_singleton {α : Type} {P : Prop} [Decidable P] {r : α}
    {Q : α → Prop} :
    (∃ x ∈ (if P then [r] else ([] : List α)), Q x) ↔ P ∧ Q r := by
  by_cases h : P <;> simp [h]

/-- A stats dict whose present values are all numeric. -/
def numStats (p c a n : Option ℚ) : StatsData :=
  ⟨p.map StatVal.num, c.map StatVal.num, a.map StatVal.num, n.map StatVal.num⟩

lemma toNum_statGet_num (o : Option ℚ) (d : ℚ) :
    (statGet (o.map StatVal.num) d).toNum = Except.ok (o.getD d) := by
  cases o <;> rfl

lemma detectStatistical_numStats (p c a n : Option ℚ) (now : String) :
    detectStatisticalAnomalies (numStats p c a n) now = Except.ok
      ((if p.getD 0 > 1000 then [peakAnomaly (p.getD 0) now] else [])
        ++ (if c.getD 100 < 50 then [complianceAnomaly (c.getD 100) now] else [])
        ++ (if 0 < n.getD 0 ∧ a.getD 0 / n.getD 0 < 1 / 2
            then [deviceActivityAnomaly (a.getD 0 / n.getD 0) now] else [])) := by
  simp only [detectStatisticalAnomalies, numStats]
  rw [toNum_statGet_num, toNum_statGet_num, toNum_statGet_num, toNum_statGet_num]
  by_cases hn : 0 < n.getD 0 <;> simp [hn]

lemma mem_statistical_list {p c a n : Option ℚ} {now : String} {r : Anomaly} :
    r ∈ ((if p.getD 0 > 1000 then [peakAnomaly (p.getD 0) now] else [])
      ++ (if c.getD 100 < 50 then [complianceAnomaly (c.getD 100) now] else [])
      ++ (if 0 < n.getD 0 ∧ a.getD 0 / n.getD 0 < 1 / 2
          then [deviceActivityAnomaly (a.getD 0 / n.getD 0) now] else []))
    ↔ (p.getD 0 > 1000 ∧ r = peakAnomaly (p.getD 0) now)
      ∨ (c.getD 100 < 50 ∧ r = complianceAnomaly (c.getD 100) now)
      ∨ ((0 < n.getD 0 ∧ a.getD 0 / n.getD 0 < 1 / 2)
          ∧ r = deviceActivityAnomaly (a.getD 0 / n.getD 0) now) := by
  by_cases h1 : p.getD 0 > 1000 <;> by_cases h2 : c.getD 100 < 50 <;>
    by_cases h3 : 0 < n.getD 0 ∧ a.getD 0 / n.getD 0 < 1 / 2 <;>
    simp [h1, h2, h3]

/-- C1: `detect_anomalies` is total — for every input it either returns the
try-body's anomaly list, or the body raised and it returns exactly the
single `detection_error` record of severity `low`; in particular a stats
dict carrying a malformed (non-numeric) compliance score yields that single
error record. -/
theorem c1_detect_anomalies_total :
    (∀ (df : Option (List Event)) (stats : StatsData) (now : String),
      (∃ l, detectAnomaliesBody df stats now = Except.ok l
          ∧ detectAnomalies df stats now = l)
      ∨ (∃ msg, detectAnomaliesBody df stats now = Except.error msg
          ∧ detectAnomalies df stats now = [detectionError now]
          ∧ (detectionError now).type = "detection_error"
          ∧ (detectionError now).severity = Severity.low))
    ∧ (∀ now : String,
        detectAnomalies none
          (StatsData.mk none (some (StatVal.str "not-a-number")) none none) now
          = [detectionError now]) := by
  refine ⟨fun df stats now => ?_, fun now => rfl⟩
  cases h : detectAnomaliesBody df stats now with
  | ok l => exact Or.inl ⟨l, rfl, by rw [detectAnomalies, h]⟩
  | error e => exact Or.inr ⟨e, rfl, by rw [detectAnomalies, h], rfl, rfl⟩

/-- C5: on numeric stats input the statistical strategy succeeds and emits a
`medium` `high_peak_activity` anomaly iff the peak-hour event count exceeds
1000, a `high` `low_compliance` anomaly iff the compliance score is below
50, and a `medium` `low_device_activity` anomaly iff `num_devices > 0` and
`devices_active_today / num_devices < 0.5`; by its signature the strategy
reads only the stats dict, never the raw events. -/
theorem c5_statistical_strategy :
    ∀ (p c a n : Option ℚ) (now : String),
      ∃ l, detectStatisticalAnomalies (numStats p c a n) now = Except.ok l
      ∧ ((∃ r ∈ l, r.type = "high_peak_activity" ∧ r.severity = Severity.medium)
            ↔ p.getD 0 > 1000)
      ∧ ((∃ r ∈ l, r.type = "low_compliance" ∧ r.severity = Severity.high)
            ↔ c.getD 100 < 50)
      ∧ ((∃ r ∈ l, r.type = "low_device_activity" ∧ r.severity = Severity.medium)
            ↔ 0 < n.getD 0 ∧ a.getD 0 / n.getD 0 < 1 / 2) := by
  intro p c a n now
  refine ⟨_, detectStatistical_numStats p c a n now, ?_, ?_, ?_⟩
  · constructor
    · rintro ⟨r, hmem, ht, -⟩
      rcases mem_statistical_list.mp hmem with ⟨hc, rfl⟩ | ⟨hc, rfl⟩ | ⟨hc, rfl⟩
      · exact hc
      · simp [complianceAnomaly] at ht
      · simp [deviceActivityAnomaly] at ht
    · intro hp
      exact ⟨peakAnomaly (p.getD 0) now,
        mem_statistical_list.mpr (Or.inl ⟨hp, rfl⟩), rfl, rfl⟩
  · constructor
    · rintro ⟨r, hmem, ht, -⟩
      rcases mem_statistical_list.mp hmem with ⟨hc, rfl⟩ | ⟨hc, rfl⟩ | ⟨hc, rfl⟩
      · simp [peakAnomaly] at ht
      · exact hc
      · simp [deviceActivityAnomaly] at ht
    · intro hp
      exact ⟨complianceAnomaly (c.getD 100) now,
        mem_statistical_list.mpr (Or.inr (Or.inl ⟨hp, rfl⟩)), rfl, rfl⟩
  · constructor
    · rintro ⟨r, hmem, ht, -⟩
      rcases mem_statistical_list.mp hmem with ⟨hc, rfl⟩ | ⟨hc, rfl⟩ | ⟨hc, rfl⟩
      · simp [peakAnomaly] at ht
      · simp [complianceAnomaly] at ht
      · exact hc
    · intro hp
      exact ⟨deviceActivityAnomaly (a.getD 0 / n.getD 0) now,
        mem_statistical_list.mpr (Or.inr (Or.inr ⟨hp, rfl⟩)), rfl, rfl⟩

/-- C10: with no compliance-score entry in the stats dict the statistical
strategy defaults the score to 100 and emits no `low_compliance` anomaly;
with an explicitly supplied numeric score the anomaly is emitted exactly
when that score is below 50. -/
theorem c10_compliance_default :
    ∀ (p a n : Option ℚ) (now : String),
      (∃ l, detectStatisticalAnomalies (numStats p none a n) now = Except.ok l
          ∧ ∀ r ∈ l, r.type ≠ "low_compliance")
      ∧ (∀ cs : ℚ, ∃ l,
          detectStatisticalAnomalies (numStats p (some cs) a n) now = Except.ok l
          ∧ ((∃ r ∈ l, r.type = "low_compliance") ↔ cs < 50)) := by
  intro p a n now
  constructor
  · refine ⟨_, detectStatistical_numStats p none a n now, ?_⟩
    intro r hr hcontra
    rcases mem_statistical_list.mp hr with ⟨hc, rfl⟩ | ⟨hc, rfl⟩ | ⟨hc, rfl⟩
    · simp [peakAnomaly] at hcontra
    · norm_num at hc
    · simp [deviceActivityAnomaly] at hcontra
  · intro cs
    refine ⟨_, detectStatistical_numStats p (some cs) a n now, ?_⟩
    constructor
    · rintro ⟨r, hmem, ht⟩
      rcases mem_statistical_list.mp hmem with ⟨hc, rfl⟩ | ⟨hc, rfl⟩ | ⟨hc, rfl⟩
      · simp [peakAnomaly] at ht
      · simpa using hc
      · simp [deviceActivityAnomaly] at ht
    · intro hcs
      exact ⟨complianceAnomaly ((some cs).getD 100) now,
        mem_statistical_list.mpr (Or.inr (Or.inl ⟨by simpa using hcs, rfl⟩)), rfl⟩

lemma valueCounts_pos {α : Type} [DecidableEq α] (l : List α) :
    ∀ pr ∈ valueCounts l, 1 ≤ pr.2 := by
  intro pr hpr
  obtain ⟨x, hx, rfl⟩ := List.mem_map.mp hpr
  simpa using List.count_pos_iff.mpr (List.mem_dedup.mp hx)

/-- C9: per-device counts come from a `value_counts`-style aggregation over
the observed events, so every count is at least 1 and the pattern-based
detector's `inactive_device` branch is unreachable: it never emits an
`inactive_device` anomaly. -/
theorem c9_inactive_device_unreachable :
    ∀ (df : List Event) (now : String),
      (∀ pr ∈ valueCounts (df.map Event.doorId), 1 ≤ pr.2)
      ∧ (∀ r ∈ detectPatternAnomalies df now, r.type ≠ "inactive_device") := by
  intro df now
  refine ⟨valueCounts_pos _, ?_⟩
  intro r hr
  have hmin : ¬ (0 < (deviceCounts df).length
      ∧ ((deviceCounts df).map Prod.snd).min? = some 0) := by
    rintro ⟨-, hm⟩
    have h0 : (0 : ℕ) ∈ (deviceCounts df).map Prod.snd :=
      List.min?_mem (fun a b => min_choice a b) hm
    obtain ⟨pr, hpr, hpr0⟩ := List.mem_map.mp h0
    have := valueCounts_pos (df.map Event.doorId) pr hpr
    omega
  rw [detectPatternAnomalies, if_neg hmin, List.append_nil] at hr
  rcases hv : sampleVar ((userCounts df).map fun p => (p.2 : ℚ)) with - | var
  · simp only [hv] at hr
    exact absurd hr (List.not_mem_nil r)
  · simp only [hv] at hr
    by_cases h0 : 0 < var
    · rw [if_pos h0] at hr
      obtain ⟨pr, -, rfl⟩ := List.mem_map.mp hr
      simp [highUserAnomaly]
    · rw [if_neg h0] at hr
      exact absurd hr (List.not_mem_nil r)

end EnhancedAnalytics
